import Mathlib

/-!
Shallow embedding of the repository satran/Pycon2012.

The repository holds two independent Python files:
  * `hello.py`  — a greeting lookup over a fixed table with a fallback string;
  * `rest.py`   — a `Resource` base class implementing RESTful dispatch for
    Django: the class-level entry point `dispatch` creates a fresh instance
    per request and the private `__dispatch` routes the lower-cased HTTP
    method name to a same-named attribute of the instance, with synthesized
    defaults for HEAD and OPTIONS and a 405 response otherwise.

Python strings are modelled by Lean `String`; the Python string operations
used by the code (`str.lower`, `str.upper`, `str.startswith`, `sorted`,
`', '.join`) are re-implemented below over `String.data` so that they reduce
in the kernel.  Machine integers do not occur; status codes are `Nat`.
-/

namespace Pycon2012

/-- Python `s.lower()` (ASCII, which covers every string the code handles). -/
def pyLower (s : String) : String := ⟨s.data.map Char.toLower⟩

/-- Python `s.upper()` (ASCII). -/
def pyUpper (s : String) : String := ⟨s.data.map Char.toUpper⟩

/-- Python `s.startswith(p)`. -/
def pyStartsWith (s p : String) : Bool := p.data.isPrefixOf s.data

/-- Lexicographic `<=` on code points, as Python compares strings. -/
def strLeB : List Char → List Char → Bool
  | [], _ => true
  | _ :: _, [] => false
  | a :: as, b :: bs =>
    if a.toNat < b.toNat then true
    else if b.toNat < a.toNat then false
    else strLeB as bs

/-- Insertion step of the sort used to model Python `sorted`. -/
def insertStr (a : String) : List String → List String
  | [] => [a]
  | b :: bs => if strLeB a.data b.data then a :: b :: bs else b :: insertStr a bs

/-- Python `sorted` on a list of strings (stable insertion sort). -/
def sortStrs : List String → List String
  | [] => []
  | a :: as => insertStr a (sortStrs as)

/-- Name de-duplication keeping first occurrences, as `dir()` de-duplicates
attribute names before they are sorted. -/
def dedupStrsGo (seen : List String) : List String → List String
  | [] => []
  | a :: as =>
    if seen.contains a then dedupStrsGo seen as
    else a :: dedupStrsGo (a :: seen) as

/-- See `dedupStrsGo`. -/
def dedupStrs (l : List String) : List String := dedupStrsGo [] l

/-- Python `', '.join(l)`. -/
def joinComma (l : List String) : String := String.intercalate ", " l

/-! ## hello.py -/

/-- The literal dict of `hello.py` lines 5-15, in source order. -/
def helloTable : List (String × String) :=
  [("chinese", "ni hao"),
   ("croatian", "bok"),
   ("english", "hello"),
   ("filipino", "kumusta"),
   ("german", "hallo"),
   ("hindi", "namaste"),
   ("japanese", "konnichiwa"),
   ("swahili", "hujambo"),
   ("thai", "swadikap")]

/-- `hello.py:1-16`: `dict.get(language, fallback)` where the fallback is
`"Sorry I can't speak {0}, still, hello!".format(language)`.  The Python
default argument `language="english"` is represented by applying `hello`
to `"english"`. -/
def hello (language : String) : String :=
  match helloTable.lookup language with
  | some greeting => greeting
  | none => "Sorry I can't speak " ++ language ++ ", still, hello!"

/-! ## rest.py : data model -/

/-- `rest.py:5`: `METHODS = sorted(('get', 'post', 'head', 'options', 'put',
'delete'))`. -/
def METHODS : List String :=
  sortStrs ["get", "post", "head", "options", "put", "delete"]

/-- The part of a Django request the dispatcher reads: the `method` string.
`args` stands for the positional path parameters forwarded untouched. -/
structure HttpRequest where
  method : String
  args : List String
deriving DecidableEq

/-- A Django `HttpResponse` as used by the code: a status code, a body, and
the `Allow` header (the only header the code touches; `none` = not set). -/
structure HttpResponse where
  status_code : Nat
  content : String
  allow : Option String
deriving DecidableEq

/-- A Python value a handler method may return: an `HttpResponse`, or any
other object — the code only distinguishes response vs non-response
(`isinstance(response, HttpResponse)`), and the non-response value it ever
produces itself is the string `''`. -/
inductive PyValue where
  | resp (r : HttpResponse)
  | str (s : String)
deriving DecidableEq

/-- Outcome of a call: a returned value, or an uncaught Python exception. -/
inductive Outcome where
  | ok (v : PyValue)
  | error (e : String)
deriving DecidableEq

/-- The instance `__dict__` of the per-request `Resource` object.  A fresh
instance starts with `[]`; handler methods may read and write it. -/
abbrev InstState := List (String × String)

/-- A concrete subclass of `Resource`: the methods the subclass defines, as
an association list from method name to implementation.  An implementation
receives the instance state and the request and returns its result together
with the updated instance state. -/
structure Handler where
  methods : List (String × (InstState → HttpRequest → PyValue × InstState))

/-- Attribute names every instance inherits from the `Resource` base class
itself: the classmethod `dispatch` and the name-mangled private helpers.
(Members inherited from `object` are dunder names, which also start with
an underscore and are not methods for `inspect.ismethod`; they never match
any name the code looks up, so they are not listed.) -/
def baseAttrNames : List String :=
  ["dispatch", "_Resource__not_allowed", "_Resource__default_head",
   "_Resource__default_options", "_Resource__no_method", "_Resource__dispatch"]

/-- The method names a subclass defines. -/
def Handler.definedNames (h : Handler) : List String := h.methods.map Prod.fst

/-- Python `hasattr(self, name)`: the name is an attribute of the instance —
defined by the subclass or inherited from `Resource`.  Every call site in
the code runs before any handler method has executed, so the instance
`__dict__` is still empty and contributes nothing. -/
def Handler.hasattr (h : Handler) (name : String) : Bool :=
  h.definedNames.contains name || baseAttrNames.contains name

/-! ## rest.py : the Resource methods -/

namespace Resource

/-- The `allow` list built by `__not_allowed` (`rest.py:59-64`): the verbs of
`METHODS`, in order, for which `hasattr(self, method)` holds, with `'head'`
appended when `'get'` is in the list and `'head'` is not. -/
def notAllowedVerbs (h : Handler) : List String :=
  let allow := METHODS.filter (fun m => h.hasattr m)
  if allow.contains "get" && !(allow.contains "head") then allow ++ ["head"]
  else allow

/-- `rest.py:55-65` `Resource.__not_allowed`: a Django
`HttpResponseNotAllowed(k.upper() for k in allow)` — status 405, empty body,
`Allow` header `', '.join` of the upper-cased verbs. -/
def not_allowed (h : Handler) : HttpResponse :=
  { status_code := 405, content := "",
    allow := some (joinComma ((notAllowedVerbs h).map pyUpper)) }

/-- `rest.py:67-80` `Resource.__default_head`: call `self.get(...)`; if the
result is not an `HttpResponse`, return `''`; otherwise empty its content,
force its status code to 200 and return it.  (Only reachable under
`hasattr(self, 'get')`; the `none` branch is the `AttributeError` Python
would raise otherwise.) -/
def default_head (h : Handler) (st : InstState) (req : HttpRequest) :
    Outcome × InstState :=
  match h.methods.lookup "get" with
  | none => (.error "AttributeError", st)
  | some g =>
    match g st req with
    | (.resp r, st2) =>
      (.ok (.resp { r with content := "", status_code := 200 }), st2)
    | (.str _, st2) => (.ok (.str ""), st2)

/-- The `Allow` list of `__default_options` (`rest.py:88`):
`[x[0].upper() for x in inspect.getmembers(self, predicate=inspect.ismethod)
if x[0] in METHODS]` before the upper-casing — `getmembers` walks `dir(self)`
(the sorted, de-duplicated attribute names), and all the attributes here are
methods, so the list is the sorted names filtered to `METHODS`. -/
def optionsAllow (h : Handler) : List String :=
  (sortStrs (dedupStrs (h.definedNames ++ baseAttrNames))).filter
    (fun x => METHODS.contains x)

/-- `rest.py:82-89` `Resource.__default_options`: a fresh `HttpResponse`
(empty body), status 200, `Allow` header set from `optionsAllow`. -/
def default_options (h : Handler) (st : InstState) (_req : HttpRequest) :
    Outcome × InstState :=
  (.ok (.resp { status_code := 200, content := "",
                allow := some (joinComma ((optionsAllow h).map pyUpper)) }),
   st)

/-- `rest.py:91-100` `Resource.__no_method`: compares the raw
`request.method` (not lower-cased) with `'HEAD'` and `'OPTIONS'`. -/
def no_method (h : Handler) (st : InstState) (req : HttpRequest) :
    Outcome × InstState :=
  if req.method == "HEAD" && h.hasattr "get" then default_head h st req
  else if req.method == "OPTIONS" then default_options h st req
  else (.ok (.resp (not_allowed h)), st)

/-- `rest.py:102-111` `Resource.__dispatch`: lower-case `request.method`;
reject names starting with `'_'` with `__not_allowed`; otherwise
`getattr(self, method, self.__no_method)(request, ...)`.  The attribute
lookup searches the subclass methods and then the `Resource` attributes; of
the latter only `dispatch` can match (the rest start with `'_'`), and the
inherited classmethod `dispatch` re-enters `cls().__dispatch` on a fresh
instance — modelled by the fuel parameter, `none` meaning the recursion
never returns. -/
def dispatchAux : Nat → Handler → InstState → HttpRequest →
    Option (Outcome × InstState)
  | 0, _, _, _ => none
  | fuel + 1, h, st, req =>
    let method := pyLower req.method
    if pyStartsWith method "_" then
      some (.ok (.resp (not_allowed h)), st)
    else
      match h.methods.lookup method with
      | some f => some (let r := f st req; (.ok r.1, r.2))
      | none =>
        if method == "dispatch" then dispatchAux fuel h [] req
        else some (no_method h st req)

/-- `rest.py:42-53` the classmethod `Resource.dispatch`:
`cls().__dispatch(request, *args, **kwargs)` — a fresh instance (empty
`__dict__`) is created for the request and discarded after the response. -/
def dispatch (fuel : Nat) (h : Handler) (req : HttpRequest) : Option Outcome :=
  (dispatchAux fuel h [] req).map Prod.fst

/-- The framework calling the class-level entry point once per inbound
request, each call on a fresh instance (`rest.py:23-31` docstring). -/
def serve (fuel : Nat) (h : Handler) (reqs : List HttpRequest) :
    List (Option Outcome) :=
  reqs.map (dispatch fuel h)

end Resource

/-! ## Spec-side definitions (for refinement comparisons) -/

/-- Modelled from the spec's words for the "not allowed" construction:
"collect every verb in the fixed sorted verb set for which the class
defines a same-named method; if `get` is supported and `head` is not
explicitly defined, add `head` to the allowed set." -/
def specNotAllowedVerbs (h : Handler) : List String :=
  let explicit := METHODS.filter (fun m => h.definedNames.contains m)
  if explicit.contains "get" && !(explicit.contains "head") then
    explicit ++ ["head"]
  else explicit

/-! ## Concrete handler classes used as inputs -/

/-- A `get` returning a plain 200 response. -/
def okGetImpl : InstState → HttpRequest → PyValue × InstState :=
  fun st _ => (.resp { status_code := 200, content := "body", allow := none }, st)

/-- A subclass defining only `get`. -/
def onlyGetH : Handler := ⟨[("get", okGetImpl)]⟩

/-- A `get` returning a 404 response. -/
def get404Impl : InstState → HttpRequest → PyValue × InstState :=
  fun st _ => (.resp { status_code := 404, content := "missing", allow := none }, st)

/-- A subclass defining only `get`, whose `get` answers with status 404. -/
def get404H : Handler := ⟨[("get", get404Impl)]⟩

/-- A subclass defining `get` and `post`. -/
def getPostH : Handler :=
  ⟨[("get", okGetImpl),
    ("post", fun st _ => (.resp { status_code := 201, content := "made", allow := none }, st))]⟩

/-- A subclass defining `get` and `put`. -/
def getPutH : Handler :=
  ⟨[("get", okGetImpl),
    ("put", fun st _ => (.resp { status_code := 200, content := "put", allow := none }, st))]⟩

/-- A subclass defining no methods at all. -/
def noMethodsH : Handler := ⟨[]⟩

/-- A subclass defining none of the six verbs but a public helper `purge`. -/
def purgeH : Handler := ⟨[("purge", fun st _ => (.str "purged", st))]⟩

/-- A subclass defining none of the six verbs but a public helper `frob`. -/
def frobH : Handler := ⟨[("frob", fun st _ => (.str "frobbed", st))]⟩

/-! ## Helper lemmas -/

theorem lookup_isSome_eq_contains {β : Type} (l : List (String × β)) (k : String) :
    (l.lookup k).isSome = (l.map Prod.fst).contains k := by
  induction l with
  | nil => rfl
  | cons p ps ih =>
    rcases p with ⟨a, b⟩
    by_cases h : (k == a) = true
    · simp [List.lookup, h, List.contains, List.elem]
    · rw [Bool.not_eq_true] at h
      simp [List.lookup, h, List.contains, List.elem] at ih ⊢
      exact ih

theorem lookup_eq_none_of_contains_false {β : Type} (l : List (String × β))
    (k : String) (hc : (l.map Prod.fst).contains k = false) :
    l.lookup k = none := by
  have h := lookup_isSome_eq_contains l k
  rw [hc] at h
  cases hl : l.lookup k with
  | none => rfl
  | some v => rw [hl] at h; simp at h

theorem contains_of_lookup_eq_some {β : Type} {l : List (String × β)}
    {k : String} {v : β} (hv : l.lookup k = some v) :
    (l.map Prod.fst).contains k = true := by
  have h := lookup_isSome_eq_contains l k
  rw [hv] at h
  exact h.symm

theorem mem_insertStr {x a : String} {l : List String} :
    x ∈ insertStr a l ↔ x = a ∨ x ∈ l := by
  induction l with
  | nil => simp [insertStr]
  | cons b bs ih =>
    simp only [insertStr]
    by_cases h : strLeB a.data b.data = true
    · simp [h]
    · rw [Bool.not_eq_true] at h
      simp [h, ih]
      tauto

theorem mem_sortStrs {x : String} {l : List String} : x ∈ sortStrs l ↔ x ∈ l := by
  induction l with
  | nil => simp [sortStrs]
  | cons a as ih => simp [sortStrs, mem_insertStr, ih]

theorem contains_eq_false_iff {l : List String} {x : String} :
    l.contains x = false ↔ x ∉ l := by
  constructor
  · intro h hm
    have ht : l.contains x = true := List.elem_iff.mpr hm
    exact Bool.noConfusion (ht.symm.trans h)
  · intro h
    cases hc : l.contains x with
    | false => rfl
    | true => exact absurd (List.elem_iff.mp hc) h

theorem mem_dedupStrsGo {x : String} (seen l : List String) :
    x ∈ dedupStrsGo seen l ↔ (x ∈ l ∧ seen.contains x = false) := by
  induction l generalizing seen with
  | nil => simp [dedupStrsGo]
  | cons a as ih =>
    simp only [dedupStrsGo]
    by_cases h : seen.contains a = true
    · rw [if_pos h, ih]
      constructor
      · rintro ⟨hx, hs⟩
        exact ⟨List.mem_cons_of_mem _ hx, hs⟩
      · rintro ⟨hx, hs⟩
        rcases List.mem_cons.mp hx with rfl | hx2
        · rw [hs] at h; cases h
        · exact ⟨hx2, hs⟩
    · rw [Bool.not_eq_true] at h
      rw [if_neg (by rw [h]; exact Bool.false_ne_true)]
      constructor
      · intro hx
        rcases List.mem_cons.mp hx with rfl | hx2
        · exact ⟨List.mem_cons_self _ _, h⟩
        · rcases (ih _).mp hx2 with ⟨hxs, hcf⟩
          refine ⟨List.mem_cons_of_mem _ hxs, ?_⟩
          rw [contains_eq_false_iff] at hcf ⊢
          exact fun hm => hcf (List.mem_cons_of_mem _ hm)
      · rintro ⟨hx, hs⟩
        rcases List.mem_cons.mp hx with rfl | hx2
        · exact List.mem_cons_self _ _
        · by_cases hxa : x = a
          · subst hxa
            exact List.mem_cons_self _ _
          · refine List.mem_cons_of_mem _ ((ih _).mpr ⟨hx2, ?_⟩)
            rw [contains_eq_false_iff] at hs ⊢
            intro hm
            rcases List.mem_cons.mp hm with rfl | hm2
            · exact hxa rfl
            · exact hs hm2

theorem mem_dedupStrs {x : String} (l : List String) :
    x ∈ dedupStrs l ↔ x ∈ l := by
  rw [dedupStrs, mem_dedupStrsGo]
  simp [List.contains, List.elem]

/-- None of the six verbs collides with an attribute name inherited from
`Resource`. -/
theorem base_not_verb : ∀ x ∈ METHODS, baseAttrNames.contains x = false := by
  decide

/-- `__not_allowed` reads the handler only through its method names. -/
theorem not_allowed_congr (h1 h2 : Handler)
    (he : h1.definedNames = h2.definedNames) :
    Resource.not_allowed h1 = Resource.not_allowed h2 := by
  unfold Resource.not_allowed Resource.notAllowedVerbs Handler.hasattr
  simp only [he]

/-- The `allow` list built by `__not_allowed` is exactly the one the spec
describes: `hasattr(self, m)` for `m` in `METHODS` is the same as "the class
defines `m`", because no inherited `Resource` attribute is named after a
verb. -/
theorem notAllowedVerbs_eq_spec (h : Handler) :
    Resource.notAllowedVerbs h = specNotAllowedVerbs h := by
  unfold Resource.notAllowedVerbs specNotAllowedVerbs Handler.hasattr
  have hf : METHODS.filter
        (fun m => h.definedNames.contains m || baseAttrNames.contains m)
      = METHODS.filter (fun m => h.definedNames.contains m) := by
    apply List.filter_congr
    intro x hx
    rw [base_not_verb x hx, Bool.or_false]
  rw [hf]

/-- Evaluation of `__dispatch` when the lower-cased method name does not
start with an underscore and matches no attribute of the instance: the
request resolves through `__no_method`. -/
theorem dispatch_no_attr (h : Handler) (req : HttpRequest) (fuel : Nat)
    (h1 : pyStartsWith (pyLower req.method) "_" = false)
    (h2 : (h.methods.map Prod.fst).contains (pyLower req.method) = false)
    (h3 : (pyLower req.method == "dispatch") = false) :
    Resource.dispatch (fuel + 1) h req = some (Resource.no_method h [] req).1 := by
  have hl := lookup_eq_none_of_contains_false h.methods _ h2
  simp [Resource.dispatch, Resource.dispatchAux, h1, hl, h3]

/-! ## Claims -/

/-- C1, counterexample: the claim says a request whose lower-cased method
name is not one of the six verbs is never dispatched to a same-named public
method and resolves through the no-matching-method path.  But `__dispatch`
uses `getattr` with no verb whitelist: on a subclass with a public helper
`purge`, a request with method `PURGE` (lower-cased `purge`, not a verb)
invokes `purge` directly, and its result differs from what the
no-matching-method path would return. -/
theorem C1_counterexample :
    pyLower "PURGE" ∉ METHODS ∧
    Resource.dispatch 3 purgeH ⟨"PURGE", []⟩ = some (.ok (.str "purged")) ∧
    (Resource.no_method purgeH [] ⟨"PURGE", []⟩).1 ≠ .ok (.str "purged") := by
  decide

/-- C1 (amended): direct dispatch is keyed on attribute names, not on the
six verbs: a name starting with an underscore is rejected, and a request
whose lower-cased method name matches neither a subclass-defined method nor
the inherited classmethod `dispatch` resolves through the
no-matching-method path (`__no_method`).  A non-verb public method with a
matching name, however, is invoked directly. -/
theorem C1_theorem (h : Handler) (req : HttpRequest) (fuel : Nat)
    (h1 : pyStartsWith (pyLower req.method) "_" = false)
    (h2 : (h.methods.map Prod.fst).contains (pyLower req.method) = false)
    (h3 : (pyLower req.method == "dispatch") = false) :
    Resource.dispatch (fuel + 1) h req = some (Resource.no_method h [] req).1 :=
  dispatch_no_attr h req fuel h1 h2 h3

/-- C1, witness: a request with the unrecognized method `NOPE` on the
`purge` handler resolves through `__no_method`. -/
theorem C1_witness :
    Resource.dispatch 1 purgeH ⟨"NOPE", []⟩ =
      some (Resource.no_method purgeH [] ⟨"NOPE", []⟩).1 :=
  C1_theorem purgeH ⟨"NOPE", []⟩ 0 (by decide) (by decide) (by decide)

/-- C3: every key of the fixed greeting table maps to exactly its greeting;
the default language `english` yields `"hello"`; lookup is case-sensitive
(`"English"` is not a key and falls back); and every non-key yields the
fallback string, which embeds the requested language name, with no failure
path. -/
theorem C3_theorem :
    (∀ p ∈ helloTable, hello p.1 = p.2) ∧
    hello "english" = "hello" ∧
    hello "English" = "Sorry I can't speak " ++ "English" ++ ", still, hello!" ∧
    ∀ s : String, helloTable.lookup s = none →
      hello s = "Sorry I can't speak " ++ s ++ ", still, hello!" := by
  refine ⟨by decide, by decide, by decide, ?_⟩
  intro s hs
  unfold hello
  rw [hs]

/-- C3, witness: the `thai` key and the non-key `klingon`. -/
theorem C3_witness :
    hello "thai" = "swadikap" ∧
    hello "klingon" = "Sorry I can't speak " ++ "klingon" ++ ", still, hello!" :=
  ⟨C3_theorem.1 ("thai", "swadikap") (by decide),
   C3_theorem.2.2.2 "klingon" (by decide)⟩

/-- C4: a request whose lower-cased method name begins with an underscore
is answered with the 405 "not allowed" response before any attribute
lookup: the response is produced by `__not_allowed` alone, which reads the
handler only through its method names — no handler method is looked up or
invoked.  In particular a method name aliasing a mangled private helper
(e.g. `_Resource__no_method`) never reaches that helper. -/
theorem C4_theorem (h : Handler) (req : HttpRequest) (fuel : Nat)
    (hu : pyStartsWith (pyLower req.method) "_" = true) :
    Resource.dispatch (fuel + 1) h req =
      some (.ok (.resp (Resource.not_allowed h))) ∧
    ∀ h2 : Handler, h2.definedNames = h.definedNames →
      Resource.not_allowed h2 = Resource.not_allowed h := by
  constructor
  · simp [Resource.dispatch, Resource.dispatchAux, hu]
  · intro h2 he
    exact not_allowed_congr h2 h he

/-- C4, witness: spoofing the mangled name of `__no_method` on the
get-only handler yields the 405 response. -/
theorem C4_witness :
    Resource.dispatch 1 onlyGetH ⟨"_Resource__no_method", []⟩ =
      some (.ok (.resp (Resource.not_allowed onlyGetH))) :=
  (C4_theorem onlyGetH ⟨"_Resource__no_method", []⟩ 0 (by decide)).1

/-- C5: the "not allowed" response has status 405 and its `Allow` header
joins, upper-cased, exactly the verbs of the sorted `METHODS` for which the
class defines a same-named method (the spec-side `specNotAllowedVerbs`),
with `head` added when `get` is defined and `head` is not; concretely, a
class defining only `get` answers a `PUT` request with 405 and
`Allow: GET, HEAD`. -/
theorem C5_theorem :
    (∀ h : Handler,
      (Resource.not_allowed h).status_code = 405 ∧
      (Resource.not_allowed h).allow =
        some (joinComma ((specNotAllowedVerbs h).map pyUpper))) ∧
    Resource.dispatch 3 onlyGetH ⟨"PUT", []⟩ =
      some (.ok (.resp ⟨405, "", some "GET, HEAD"⟩)) := by
  refine ⟨fun h => ⟨rfl, ?_⟩, by decide⟩
  unfold Resource.not_allowed
  rw [notAllowedVerbs_eq_spec]

/-- C2, counterexample: the claim says the synthesized HEAD response has a
status identical to the status of the `get` response.  But `__default_head`
assigns `response.status_code = 200` unconditionally: on a handler whose
`get` answers 404, a HEAD request is answered with status 200, not 404. -/
theorem C2_counterexample :
    Resource.dispatch 3 get404H ⟨"HEAD", []⟩ =
      some (.ok (.resp ⟨200, "", none⟩)) ∧
    (get404Impl [] ⟨"HEAD", []⟩).1 = .resp ⟨404, "missing", none⟩ ∧
    (200 : Nat) ≠ 404 := by
  decide

/-- C2 (amended): for a handler defining `get` but not `head`, a HEAD
request invokes `get` (on the fresh, empty instance state); if `get`
returns a recognized response object, the dispatch result is that response
with its body emptied and its status forced to 200 (regardless of the
status `get` produced); if `get` returns anything else, the empty string is
returned instead. -/
theorem default_head_eq (h : Handler)
    (g : InstState → HttpRequest → PyValue × InstState)
    (st : InstState) (req : HttpRequest)
    (hg : h.methods.lookup "get" = some g) :
    Resource.default_head h st req =
      (match g st req with
       | (.resp r, st2) =>
         (.ok (.resp { r with content := "", status_code := 200 }), st2)
       | (.str _, st2) => (.ok (.str ""), st2)) := by
  unfold Resource.default_head
  rw [hg]

theorem C2_theorem (h : Handler)
    (g : InstState → HttpRequest → PyValue × InstState)
    (req : HttpRequest) (fuel : Nat)
    (hg : h.methods.lookup "get" = some g)
    (hh : (h.methods.map Prod.fst).contains "head" = false)
    (hm : req.method = "HEAD") :
    Resource.dispatch (fuel + 1) h req =
      some (match (g [] req).1 with
            | .resp r => .ok (.resp { r with content := "", status_code := 200 })
            | .str _ => .ok (.str "")) := by
  have hd := dispatch_no_attr h req fuel
    (by rw [hm]; decide)
    (by rw [hm, show pyLower "HEAD" = "head" from by decide]; exact hh)
    (by rw [hm]; decide)
  rw [hd]
  have hget : (h.methods.map Prod.fst).contains "get" = true :=
    contains_of_lookup_eq_some hg
  have hha : h.hasattr "get" = true := by
    unfold Handler.hasattr Handler.definedNames
    rw [hget]
    rfl
  unfold Resource.no_method
  rw [hm]
  have hcond : ((("HEAD" : String) == "HEAD") && h.hasattr "get") = true := by
    rw [hha]
    rfl
  rw [if_pos hcond, default_head_eq h g [] req hg]
  rcases hr : g [] req with ⟨v, st2⟩
  cases v <;> rfl

/-- C2, witness: HEAD on the 404-answering get-only handler. -/
theorem C2_witness :
    Resource.dispatch 3 get404H ⟨"HEAD", []⟩ =
      some (match (get404Impl [] ⟨"HEAD", []⟩).1 with
            | .resp r => .ok (.resp { r with content := "", status_code := 200 })
            | .str _ => .ok (.str "")) :=
  C2_theorem get404H get404Impl ⟨"HEAD", []⟩ 2 rfl (by decide) rfl

/-- C6: for a handler not defining `options`, an OPTIONS request is
answered with status 200, an empty body, and an `Allow` header joining the
upper-cased member names filtered to `METHODS` — and those names are
exactly the supported-verb methods the class defines (the inherited
attributes contribute nothing, since none of them is named after a
verb). -/
theorem C6_theorem (h : Handler) (req : HttpRequest) (fuel : Nat)
    (hno : (h.methods.map Prod.fst).contains "options" = false)
    (hm : req.method = "OPTIONS") :
    Resource.dispatch (fuel + 1) h req =
      some (.ok (.resp
        ⟨200, "", some (joinComma ((Resource.optionsAllow h).map pyUpper))⟩)) ∧
    ∀ v : String, v ∈ Resource.optionsAllow h ↔ (v ∈ METHODS ∧ v ∈ h.definedNames) := by
  constructor
  · have hd := dispatch_no_attr h req fuel
      (by rw [hm]; decide)
      (by rw [hm, show pyLower "OPTIONS" = "options" from by decide]; exact hno)
      (by rw [hm]; decide)
    rw [hd]
    unfold Resource.no_method
    rw [hm]
    have hc1 : ¬ (((("OPTIONS" : String) == "HEAD") && h.hasattr "get") = true) := by
      rw [show (("OPTIONS" : String) == "HEAD") = false from by decide, Bool.false_and]
      exact Bool.false_ne_true
    rw [if_neg hc1,
      if_pos (show (("OPTIONS" : String) == "OPTIONS") = true from by decide)]
    rfl
  · intro v
    unfold Resource.optionsAllow
    rw [List.mem_filter, mem_sortStrs, mem_dedupStrs]
    constructor
    · rintro ⟨hv, hc⟩
      have hvM : v ∈ METHODS := List.elem_iff.mp hc
      rcases List.mem_append.mp hv with hdn | hb
      · exact ⟨hvM, hdn⟩
      · exact absurd hb (contains_eq_false_iff.mp (base_not_verb v hvM))
    · rintro ⟨hvM, hdn⟩
      exact ⟨List.mem_append.mpr (Or.inl hdn), List.elem_iff.mpr hvM⟩

/-- C6, witness: OPTIONS on the class defining `get` and `post` yields 200
with `Allow` exactly `GET, POST`. -/
theorem C6_witness :
    Resource.dispatch 3 getPostH ⟨"OPTIONS", []⟩ =
      some (.ok (.resp
        ⟨200, "", some (joinComma ((Resource.optionsAllow getPostH).map pyUpper))⟩)) ∧
    joinComma ((Resource.optionsAllow getPostH).map pyUpper) = "GET, POST" :=
  ⟨(C6_theorem getPostH ⟨"OPTIONS", []⟩ 2 (by decide) rfl).1, by decide⟩

/-- Evaluation of `__no_method` when neither default applies: the raw
request method is not `'HEAD'`-with-`get` and not `'OPTIONS'`. -/
theorem no_method_not_allowed (h : Handler) (st : InstState) (req : HttpRequest)
    (h1 : (req.method == "HEAD") = false ∨ h.hasattr "get" = false)
    (h2 : (req.method == "OPTIONS") = false) :
    Resource.no_method h st req = (.ok (.resp (Resource.not_allowed h)), st) := by
  unfold Resource.no_method
  have hc1 : ¬ ((req.method == "HEAD") && h.hasattr "get") = true := by
    rcases h1 with h1 | h1
    · rw [h1, Bool.false_and]
      exact Bool.false_ne_true
    · rw [h1, Bool.and_false]
      exact Bool.false_ne_true
  rw [if_neg hc1, if_neg (by rw [h2]; exact Bool.false_ne_true)]

/-- C7, counterexample: the claim says that on a handler with none of the
six verb methods every non-OPTIONS request gets a 405.  But a subclass with
no verb methods may still define a public helper (`frob` here), and
`getattr`-based dispatch invokes it for a request with method `FROB` — the
result is the helper's return value, not the 405 response with empty
`Allow`. -/
theorem C7_counterexample :
    METHODS.filter (fun m => frobH.definedNames.contains m) = [] ∧
    Resource.dispatch 3 frobH ⟨"FROB", []⟩ = some (.ok (.str "frobbed")) ∧
    Resource.dispatch 3 frobH ⟨"FROB", []⟩ ≠
      some (.ok (.resp ⟨405, "", some ""⟩)) := by
  decide

/-- C7 (amended): for a handler class defining none of the six verb
methods, an OPTIONS request returns 200 with an empty `Allow` header, and a
non-OPTIONS request whose lower-cased method name matches no public
attribute of the handler (it starts with an underscore, or is neither a
subclass-defined method nor `dispatch`) returns 405 with an empty `Allow`
header. -/
theorem C7_theorem (h : Handler) (req : HttpRequest) (fuel : Nat)
    (hnone : METHODS.filter (fun m => h.definedNames.contains m) = []) :
    (req.method = "OPTIONS" →
      Resource.dispatch (fuel + 1) h req = some (.ok (.resp ⟨200, "", some ""⟩))) ∧
    (req.method ≠ "OPTIONS" →
      (pyStartsWith (pyLower req.method) "_" = true ∨
        ((h.methods.map Prod.fst).contains (pyLower req.method) = false ∧
         (pyLower req.method == "dispatch") = false)) →
      Resource.dispatch (fuel + 1) h req = some (.ok (.resp ⟨405, "", some ""⟩))) := by
  have hverb : ∀ m ∈ METHODS, h.definedNames.contains m = false := by
    intro m hm
    have hnp := List.filter_eq_nil_iff.mp hnone m hm
    cases hc : h.definedNames.contains m with
    | false => rfl
    | true => exact absurd hc hnp
  have hhasattr : ∀ m ∈ METHODS, h.hasattr m = false := by
    intro m hm
    unfold Handler.hasattr
    rw [hverb m hm, base_not_verb m hm]
    rfl
  have hnav : Resource.notAllowedVerbs h = [] := by
    have hfil : METHODS.filter (fun m => h.hasattr m) = [] := by
      apply List.filter_eq_nil_iff.mpr
      intro a ha
      rw [hhasattr a ha]
      exact Bool.false_ne_true
    simp only [Resource.notAllowedVerbs, hfil]
    rfl
  have hna : Resource.not_allowed h = ⟨405, "", some ""⟩ := by
    unfold Resource.not_allowed
    rw [hnav]
    rfl
  have hoa : Resource.optionsAllow h = [] := by
    unfold Resource.optionsAllow
    apply List.filter_eq_nil_iff.mpr
    intro a ha
    intro hc
    have haM : a ∈ METHODS := List.elem_iff.mp hc
    rcases List.mem_append.mp ((mem_dedupStrs _).mp (mem_sortStrs.mp ha)) with hdn | hb
    · exact (contains_eq_false_iff.mp (hverb a haM)) hdn
    · exact (contains_eq_false_iff.mp (base_not_verb a haM)) hb
  constructor
  · intro hm
    have hopts : (h.methods.map Prod.fst).contains "options" = false :=
      hverb "options" (by decide)
    have hd := dispatch_no_attr h req fuel
      (by rw [hm]; decide)
      (by rw [hm, show pyLower "OPTIONS" = "options" from by decide]; exact hopts)
      (by rw [hm]; decide)
    rw [hd]
    unfold Resource.no_method
    rw [hm]
    have hc1 : ¬ (((("OPTIONS" : String) == "HEAD") && h.hasattr "get") = true) := by
      rw [show (("OPTIONS" : String) == "HEAD") = false from by decide, Bool.false_and]
      exact Bool.false_ne_true
    rw [if_neg hc1,
      if_pos (show (("OPTIONS" : String) == "OPTIONS") = true from by decide)]
    unfold Resource.default_options
    rw [hoa]
    rfl
  · intro hm hcase
    have hund : pyStartsWith (pyLower req.method) "_" = true →
        Resource.dispatch (fuel + 1) h req = some (.ok (.resp ⟨405, "", some ""⟩)) := by
      intro hu
      have : Resource.dispatch (fuel + 1) h req =
          some (.ok (.resp (Resource.not_allowed h))) := by
        simp [Resource.dispatch, Resource.dispatchAux, hu]
      rw [this, hna]
    rcases hcase with hu | ⟨hc, hdp⟩
    · exact hund hu
    · cases hu : pyStartsWith (pyLower req.method) "_" with
      | true => exact hund hu
      | false =>
        have hd := dispatch_no_attr h req fuel hu hc hdp
        rw [hd]
        have hg : h.hasattr "get" = false := hhasattr "get" (by decide)
        rw [no_method_not_allowed h [] req (Or.inr hg)
          (by cases hb : req.method == "OPTIONS" with
              | false => rfl
              | true => exact absurd (eq_of_beq hb) hm)]
        rw [hna]

/-- C7, witness: the handler with no methods answers OPTIONS with 200 and
an empty `Allow`, and PUT with 405 and an empty `Allow`. -/
theorem C7_witness :
    Resource.dispatch 1 noMethodsH ⟨"OPTIONS", []⟩ =
      some (.ok (.resp ⟨200, "", some ""⟩)) ∧
    Resource.dispatch 1 noMethodsH ⟨"PUT", []⟩ =
      some (.ok (.resp ⟨405, "", some ""⟩)) :=
  ⟨(C7_theorem noMethodsH ⟨"OPTIONS", []⟩ 0 (by decide)).1 rfl,
   (C7_theorem noMethodsH ⟨"PUT", []⟩ 0 (by decide)).2 (by decide)
     (Or.inr ⟨by decide, by decide⟩)⟩

/-- C8: the class-level entry point is invoked on a fresh instance per
request and the instance is discarded afterwards, so serving is per-request
functional: two equal requests get equal responses, and the response to a
request is independent of whatever requests were served before it. -/
theorem C8_theorem (h : Handler) (fuel : Nat) (pre1 pre2 : List HttpRequest)
    (req : HttpRequest) :
    Resource.serve fuel h [req, req] =
      [Resource.dispatch fuel h req, Resource.dispatch fuel h req] ∧
    (Resource.serve fuel h (pre1 ++ [req])).getLast? =
      (Resource.serve fuel h (pre2 ++ [req])).getLast? ∧
    (Resource.serve fuel h (pre1 ++ [req])).getLast? =
      some (Resource.dispatch fuel h req) := by
  have hlast : ∀ pre : List HttpRequest,
      (Resource.serve fuel h (pre ++ [req])).getLast? =
        some (Resource.dispatch fuel h req) := by
    intro pre
    unfold Resource.serve
    rw [List.map_append,
      show List.map (Resource.dispatch fuel h) [req]
        = [Resource.dispatch fuel h req] from rfl,
      List.getLast?_concat]
  exact ⟨rfl, (hlast pre1).trans (hlast pre2).symm, hlast pre1⟩

/-- C9: `__no_method` compares the raw, un-lower-cased `request.method` with
`'HEAD'` and `'OPTIONS'`: on a handler defining `get` but neither `head`
nor `options`, a request whose method string is the lowercase `"head"` (or
`"options"`) gets neither synthesized default and falls through to the 405
not-allowed response. -/
theorem C9_theorem (h : Handler)
    (g : InstState → HttpRequest → PyValue × InstState)
    (args : List String) (fuel : Nat)
    (_hg : h.methods.lookup "get" = some g)
    (hhead : (h.methods.map Prod.fst).contains "head" = false)
    (hopts : (h.methods.map Prod.fst).contains "options" = false) :
    Resource.dispatch (fuel + 1) h ⟨"head", args⟩ =
      some (.ok (.resp (Resource.not_allowed h))) ∧
    Resource.dispatch (fuel + 1) h ⟨"options", args⟩ =
      some (.ok (.resp (Resource.not_allowed h))) ∧
    (Resource.not_allowed h).status_code = 405 := by
  refine ⟨?_, ?_, rfl⟩
  · have hd := dispatch_no_attr h ⟨"head", args⟩ fuel
      (by show pyStartsWith (pyLower "head") "_" = false; decide)
      (by show (h.methods.map Prod.fst).contains (pyLower "head") = false
          rw [show pyLower "head" = "head" from by decide]
          exact hhead)
      (by show (pyLower "head" == "dispatch") = false; decide)
    rw [hd, no_method_not_allowed h [] ⟨"head", args⟩
      (Or.inl (by show (("head" : String) == "HEAD") = false; decide))
      (by show (("head" : String) == "OPTIONS") = false; decide)]
  · have hd := dispatch_no_attr h ⟨"options", args⟩ fuel
      (by show pyStartsWith (pyLower "options") "_" = false; decide)
      (by show (h.methods.map Prod.fst).contains (pyLower "options") = false
          rw [show pyLower "options" = "options" from by decide]
          exact hopts)
      (by show (pyLower "options" == "dispatch") = false; decide)
    rw [hd, no_method_not_allowed h [] ⟨"options", args⟩
      (Or.inl (by show (("options" : String) == "HEAD") = false; decide))
      (by show (("options" : String) == "OPTIONS") = false; decide)]

/-- C9, witness: the get-only handler answers the lowercase method string
`head` with the 405 not-allowed response, not the synthesized HEAD. -/
theorem C9_witness :
    Resource.dispatch 1 onlyGetH ⟨"head", []⟩ =
      some (.ok (.resp (Resource.not_allowed onlyGetH))) :=
  (C9_theorem onlyGetH okGetImpl [] 0 rfl (by decide) (by decide)).1

/-- C10: in the 405 response the explicitly defined verbs appear in the
sorted order of `METHODS` (the filtered list is pairwise nondecreasing),
and when `head` is added automatically (`get` defined, `head` not) it is
appended after every explicitly defined verb; concretely, a class defining
`get` and `put` yields `Allow: GET, PUT, HEAD`. -/
theorem C10_theorem :
    (∀ h : Handler,
      List.Pairwise (fun a b => strLeB a.data b.data = true)
        (METHODS.filter (fun m => h.hasattr m)) ∧
      (h.hasattr "get" = true → h.hasattr "head" = false →
        Resource.notAllowedVerbs h =
          METHODS.filter (fun m => h.hasattr m) ++ ["head"])) ∧
    Resource.not_allowed getPutH = ⟨405, "", some "GET, PUT, HEAD"⟩ := by
  constructor
  · intro h
    constructor
    · exact List.Pairwise.filter _
        (by decide : List.Pairwise (fun a b => strLeB a.data b.data = true) METHODS)
    · intro hget hhead
      have hc1 : (METHODS.filter (fun m => h.hasattr m)).contains "get" = true := by
        apply List.elem_iff.mpr
        exact List.mem_filter.mpr ⟨by decide, hget⟩
      have hc2 : (METHODS.filter (fun m => h.hasattr m)).contains "head" = false := by
        rw [contains_eq_false_iff]
        intro hmem
        rcases List.mem_filter.mp hmem with ⟨_, hp⟩
        rw [hhead] at hp
        cases hp
      simp [Resource.notAllowedVerbs, hc1, hc2]
      exact ⟨by decide, hget, fun _ => hhead⟩
  · decide

/-- C10, witness: for a handler with `get` and `head` status as in the
hypotheses, the automatically added `head` is the last element. -/
theorem C10_witness :
    Resource.notAllowedVerbs getPutH =
      METHODS.filter (fun m => getPutH.hasattr m) ++ ["head"] :=
  (C10_theorem.1 getPutH).2 (by decide) (by decide)

end Pycon2012
